import Mathlib

/-!
Shallow embedding of the realtime connection-manager subsystem of the Loom
backend (`src/backend/app/websocket.py`), together with proofs about the
behaviour of its operations.

Modelling conventions:

* Websockets are identified by `Nat` handles; message payloads (JSON dicts in
  the source) are opaque `Msg := Nat` values — the code never inspects a
  payload, it only stores and forwards them.
* Python dicts (insertion ordered) become association lists
  `List (String × α)` with `lookupA` / `insertA` / `eraseA`; `insertA`
  replaces in place, mirroring dict assignment, and keeps insertion order.
* `defaultdict` reads (`counts[k]`, returning and inserting a default) are
  modelled as pure default reads `getD`: every access in the source uses the
  default semantics, so the silently inserted zero/empty entries are
  observationally irrelevant and are not materialised.
* `connected_at` / `last_activity` wall-clock metadata on a connection record
  is write-only in the source (nothing ever reads it), so it is dropped from
  `ConnInfo`.
* Each operation returns its new state together with the ordered list of
  external effects (`WsEvent`) it performed: socket closes (with close code),
  attempted sends, task cancellations, and awaited cancellations.  Whether an
  attempted send raises is environment input, passed as the list of
  websockets/messages whose send fails.
* The per-connection heartbeat coroutine (`heartbeat_loop`) is modelled
  separately as a discrete-time fold (`hbRun`): each iteration sleeps
  `WS_HEARTBEAT_INTERVAL` seconds and then attempts the ping send, whose
  outcome (completed / `asyncio.TimeoutError` after `WS_PING_TIMEOUT` /
  raised) is environment input.  The iteration input also records whether the
  client answered with a pong, which the loop provably never consults.
* The `except Exception` wrappers in `connect` / `connect_partner` catch
  exceptions of the underlying socket operations; in the model socket
  failures are data (not exceptions), so that branch is not taken.
-/

namespace LoomWS

/-- Message payloads are opaque to the connection manager. -/
abbrev Msg := Nat

/-! Configuration defaults from `src/backend/app/config.py`. -/

def WS_MAX_CONNECTIONS_PER_USER : Int := 50

def WS_MAX_CONNECTIONS_PER_ROOM : Int := 100

def WS_MESSAGE_QUEUE_SIZE : Nat := 50

def WS_HEARTBEAT_INTERVAL : Nat := 30

def WS_PING_TIMEOUT : Nat := 5

/-! Association-list operations mirroring Python dict semantics. -/

/-- Dict lookup: first (unique) binding of the key. -/
def lookupA {α : Type} : List (String × α) → String → Option α
  | [], _ => none
  | p :: rest, k => if p.1 = k then some p.2 else lookupA rest k

/-- Dict lookup with a default (`defaultdict` read). -/
def getD {α : Type} (l : List (String × α)) (k : String) (d : α) : α :=
  (lookupA l k).getD d

/-- Dict assignment: replace in place if the key is bound, else append. -/
def insertA {α : Type} : List (String × α) → String → α → List (String × α)
  | [], k, v => [(k, v)]
  | p :: rest, k, v => if p.1 = k then (k, v) :: rest else p :: insertA rest k v

/-- Dict deletion (total; deleting an unbound key is the identity). -/
def eraseA {α : Type} (l : List (String × α)) (k : String) : List (String × α) :=
  l.filter (fun p => p.1 ≠ k)

/-- Counter update for the `defaultdict(int)` counters: `counts[k] += d`. -/
def addCount (l : List (String × Int)) (k : String) (d : Int) : List (String × Int) :=
  insertA l k (getD l k 0 + d)

/-- One entry of a room's connection list: the socket handle and the owning
user (metadata timestamps are write-only in the source and omitted). -/
structure ConnInfo where
  websocket : Nat
  user_id : String
deriving DecidableEq, Repr

/-- External effects performed by the connection manager. -/
inductive WsEvent where
  | close (ws code : Nat)
  | send (ws : Nat) (msg : Msg)
  | cancel (task : Nat)
  | awaitTask (task : Nat)
deriving DecidableEq, Repr

/-- The fields of `ConnectionManager.__init__`, plus `next_task`, a fresh-name
supply for `asyncio.create_task` handles (an artefact of the embedding). -/
structure ManagerState where
  active_connections : List (String × List ConnInfo) := []
  partner_connections : List (String × ConnInfo) := []
  user_connection_counts : List (String × Int) := []
  room_connection_counts : List (String × Int) := []
  message_queues : List (String × List Msg) := []
  heartbeat_tasks : List (String × Nat) := []
  last_heartbeat : List (String × Nat) := []
  shutting_down : Bool := false
  next_task : Nat := 0
deriving DecidableEq, Repr

/-- The freshly constructed manager. -/
def initState : ManagerState := {}

/-- `ConnectionManager._start_heartbeat`: cancel any task already registered
under `user_id:room_id` (without awaiting it), then install a fresh task. -/
def start_heartbeat (st : ManagerState) (user_id room_id : String) :
    ManagerState × List WsEvent :=
  if st.shutting_down then (st, [])
  else
    let key := user_id ++ ":" ++ room_id
    let ev := match lookupA st.heartbeat_tasks key with
      | some t => [WsEvent.cancel t]
      | none => []
    ({ st with
        heartbeat_tasks := insertA st.heartbeat_tasks key st.next_task,
        next_task := st.next_task + 1 }, ev)

/-- `ConnectionManager._stop_heartbeat`: pop and cancel the task if present,
awaiting the cancellation, then drop the key's last-heartbeat timestamp. -/
def stop_heartbeat (st : ManagerState) (user_id room_id : String) :
    ManagerState × List WsEvent :=
  let key := user_id ++ ":" ++ room_id
  match lookupA st.heartbeat_tasks key with
  | some t =>
      ({ st with
          heartbeat_tasks := eraseA st.heartbeat_tasks key,
          last_heartbeat := eraseA st.last_heartbeat key },
       [WsEvent.cancel t, WsEvent.awaitTask t])
  | none =>
      ({ st with last_heartbeat := eraseA st.last_heartbeat key }, [])

/-- `ConnectionManager.queue_message_for_user`: append only while strictly
below capacity; at capacity the incoming message is dropped. -/
def queue_message_for_user (st : ManagerState) (user_id : String) (message : Msg) :
    ManagerState :=
  let q := getD st.message_queues user_id []
  if q.length < WS_MESSAGE_QUEUE_SIZE then
    { st with message_queues := insertA st.message_queues user_id (q ++ [message]) }
  else st

/-- The per-message send loop inside `send_queued_messages`: attempt each
drained message in order; a failed send is re-queued via
`queue_message_for_user`. -/
def flushLoop (user_id : String) (ws : Nat) (failMsgs : List Msg) :
    ManagerState → List Msg → ManagerState × List WsEvent
  | st, [] => (st, [])
  | st, m :: rest =>
      let st1 := if m ∈ failMsgs then queue_message_for_user st user_id m else st
      let r := flushLoop user_id ws failMsgs st1 rest
      (r.1, WsEvent.send ws m :: r.2)

/-- `ConnectionManager.send_queued_messages`: if the user has a non-empty
queue, snapshot it, clear it, and send each snapshotted message in FIFO
order, re-queuing failures. -/
def send_queued_messages (st : ManagerState) (user_id : String) (ws : Nat)
    (failMsgs : List Msg) : ManagerState × List WsEvent :=
  match lookupA st.message_queues user_id with
  | some q =>
      if q.isEmpty then (st, [])
      else
        let st0 := { st with message_queues := insertA st.message_queues user_id [] }
        flushLoop user_id ws failMsgs st0 q
  | none => (st, [])

/-- `ConnectionManager.connect`: reject (close 1008) when the user is at the
per-user quota or the room at the per-room quota; otherwise register the
record, bump both counters, start the heartbeat and flush queued messages. -/
def connect (st : ManagerState) (ws : Nat) (event_id user_id : String)
    (failMsgs : List Msg) : Bool × ManagerState × List WsEvent :=
  if getD st.user_connection_counts user_id 0 ≥ WS_MAX_CONNECTIONS_PER_USER then
    (false, st, [WsEvent.close ws 1008])
  else if getD st.room_connection_counts event_id 0 ≥ WS_MAX_CONNECTIONS_PER_ROOM then
    (false, st, [WsEvent.close ws 1008])
  else
    let ci : ConnInfo := ⟨ws, user_id⟩
    let st1 := { st with
      active_connections :=
        insertA st.active_connections event_id
          (getD st.active_connections event_id [] ++ [ci]),
      user_connection_counts := addCount st.user_connection_counts user_id 1,
      room_connection_counts := addCount st.room_connection_counts event_id 1 }
    let r1 := start_heartbeat st1 user_id event_id
    let r2 := send_queued_messages r1.1 user_id ws failMsgs
    (true, r2.1, r1.2 ++ r2.2)

/-- Remove the first connection record with the given socket handle. -/
def removeFirst (ws : Nat) : List ConnInfo → Option (ConnInfo × List ConnInfo)
  | [] => none
  | c :: rest =>
      if c.websocket = ws then some (c, rest)
      else match removeFirst ws rest with
        | some (ci, l) => some (ci, c :: l)
        | none => none

/-- `ConnectionManager.disconnect`: remove the first matching record of the
room (if any), decrement both counters, stop its heartbeat; then delete the
room entry (and its counter) if the member list is now empty. -/
def disconnect (st : ManagerState) (ws : Nat) (event_id : String) :
    ManagerState × List WsEvent :=
  match lookupA st.active_connections event_id with
  | none => (st, [])
  | some conns =>
      let r :=
        match removeFirst ws conns with
        | some (ci, rest) =>
            let stA := { st with
              active_connections := insertA st.active_connections event_id rest,
              user_connection_counts := addCount st.user_connection_counts ci.user_id (-1),
              room_connection_counts := addCount st.room_connection_counts event_id (-1) }
            stop_heartbeat stA ci.user_id event_id
        | none => (st, [])
      if (getD r.1.active_connections event_id []).isEmpty then
        ({ r.1 with
            active_connections := eraseA r.1.active_connections event_id,
            room_connection_counts := eraseA r.1.room_connection_counts event_id },
         r.2)
      else r

/-- The send pass of `broadcast_to_event`: attempt a send to every member in
membership order except the excluded socket, and collect (in membership
order) the sockets whose send failed. -/
def broadcastPass (msg : Msg) (exclude : Option Nat) (failWs : List Nat) :
    List ConnInfo → List WsEvent × List Nat
  | [] => ([], [])
  | c :: rest =>
      let r := broadcastPass msg exclude failWs rest
      if some c.websocket = exclude then r
      else if c.websocket ∈ failWs then
        (WsEvent.send c.websocket msg :: r.1, c.websocket :: r.2)
      else (WsEvent.send c.websocket msg :: r.1, r.2)

/-- The cleanup pass of `broadcast_to_event`: disconnect each failed socket
in order. -/
def disconnectAll (eid : String) : ManagerState → List Nat → ManagerState × List WsEvent
  | st, [] => (st, [])
  | st, w :: rest =>
      let r1 := disconnect st w eid
      let r2 := disconnectAll eid r1.1 rest
      (r2.1, r1.2 ++ r2.2)

/-- `ConnectionManager.broadcast_to_event`: return immediately when the room
has no registry entry; otherwise run the full send pass and only then
disconnect the members whose send failed. -/
def broadcast_to_event (st : ManagerState) (event_id : String) (msg : Msg)
    (exclude : Option Nat) (failWs : List Nat) : ManagerState × List WsEvent :=
  match lookupA st.active_connections event_id with
  | none => (st, [])
  | some conns =>
      let pass := broadcastPass msg exclude failWs conns
      let r := disconnectAll event_id st pass.2
      (r.1, pass.1 ++ r.2)

/-- `ConnectionManager.connect_partner`: reject (close 1008) at the per-user
quota; otherwise overwrite the user's presence slot (the previous record, if
any, is neither closed nor its counter contribution released), bump the
counter, start the heartbeat under room id `partner` and flush the queue. -/
def connect_partner (st : ManagerState) (ws : Nat) (user_id : String)
    (failMsgs : List Msg) : Bool × ManagerState × List WsEvent :=
  if getD st.user_connection_counts user_id 0 ≥ WS_MAX_CONNECTIONS_PER_USER then
    (false, st, [WsEvent.close ws 1008])
  else
    let ci : ConnInfo := ⟨ws, user_id⟩
    let st1 := { st with
      partner_connections := insertA st.partner_connections user_id ci,
      user_connection_counts := addCount st.user_connection_counts user_id 1 }
    let r1 := start_heartbeat st1 user_id "partner"
    let r2 := send_queued_messages r1.1 user_id ws failMsgs
    (true, r2.1, r1.2 ++ r2.2)

/-- `ConnectionManager.disconnect_partner`: if a presence slot exists,
decrement the counter, stop the heartbeat, delete the slot. -/
def disconnect_partner (st : ManagerState) (user_id : String) :
    ManagerState × List WsEvent :=
  match lookupA st.partner_connections user_id with
  | some _ =>
      let st1 := { st with
        user_connection_counts := addCount st.user_connection_counts user_id (-1) }
      let r := stop_heartbeat st1 user_id "partner"
      ({ r.1 with partner_connections := eraseA r.1.partner_connections user_id }, r.2)
  | none => (st, [])

/-- `ConnectionManager._send_notification`: deliver over the live presence
connection if any; on send failure tear the presence slot down and queue the
message; with no live connection, queue it. -/
def send_notification (st : ManagerState) (user_id : String) (msg : Msg)
    (sendFail : Bool) : ManagerState × List WsEvent :=
  match lookupA st.partner_connections user_id with
  | some ci =>
      if sendFail then
        let r := disconnect_partner st user_id
        (queue_message_for_user r.1 user_id msg, WsEvent.send ci.websocket msg :: r.2)
      else (st, [WsEvent.send ci.websocket msg])
  | none => (queue_message_for_user st user_id msg, [])

/-- `ConnectionManager.shutdown`: set the draining flag, cancel every
heartbeat task (without awaiting), close every room and presence connection
with code 1001, and clear every registry, counter, queue and map. -/
def shutdown (st : ManagerState) : ManagerState × List WsEvent :=
  let ev1 := st.heartbeat_tasks.map (fun p => WsEvent.cancel p.2)
  let ev2 := st.active_connections.foldr
    (fun p acc => p.2.map (fun c => WsEvent.close c.websocket 1001) ++ acc) []
  let ev3 := st.partner_connections.map (fun p => WsEvent.close p.2.websocket 1001)
  ({ active_connections := [], partner_connections := [],
     user_connection_counts := [], room_connection_counts := [],
     message_queues := [], heartbeat_tasks := [], last_heartbeat := [],
     shutting_down := true, next_task := st.next_task },
   ev1 ++ ev2 ++ ev3)

/-! The operation alphabet of the manager, for whole-run statements.  Each
constructor carries the environment data its operation consumes (which sends
fail). -/

/-- One call into the `ConnectionManager` public surface. -/
inductive Op where
  | connect (ws : Nat) (event_id user_id : String) (failMsgs : List Msg)
  | connect_partner (ws : Nat) (user_id : String) (failMsgs : List Msg)
  | disconnect (ws : Nat) (event_id : String)
  | disconnect_partner (user_id : String)
  | broadcast (event_id : String) (msg : Msg) (exclude : Option Nat) (failWs : List Nat)
  | queueMsg (user_id : String) (msg : Msg)
  | notify (user_id : String) (msg : Msg) (sendFail : Bool)
  | shutdown

/-- State transition of one operation (effects projected away). -/
def applyOp (st : ManagerState) : Op → ManagerState
  | .connect ws eid uid fm => (connect st ws eid uid fm).2.1
  | .connect_partner ws uid fm => (connect_partner st ws uid fm).2.1
  | .disconnect ws eid => (disconnect st ws eid).1
  | .disconnect_partner uid => (disconnect_partner st uid).1
  | .broadcast eid m ex fw => (broadcast_to_event st eid m ex fw).1
  | .queueMsg uid m => queue_message_for_user st uid m
  | .notify uid m f => (send_notification st uid m f).1
  | .shutdown => (shutdown st).1

/-- Run a sequence of operations from a state. -/
def applyOps (st : ManagerState) (ops : List Op) : ManagerState :=
  ops.foldl applyOp st

/-- States reachable from the freshly constructed manager. -/
inductive Reachable : ManagerState → Prop where
  | init : Reachable initState
  | step (op : Op) {st : ManagerState} : Reachable st → Reachable (applyOp st op)

/-- Number of connection records owned by a user across the room registry and
the presence registry. -/
def ownedRecords (st : ManagerState) (u : String) : Nat :=
  (st.active_connections.map (fun p => (p.2.filter (fun c => c.user_id = u)).length)).sum
    + (st.partner_connections.filter (fun p => p.2.user_id = u)).length

/-! Discrete-time model of one `heartbeat_loop` coroutine. -/

/-- Outcome of the awaited ping send of one heartbeat iteration. -/
inductive PingSend where
  /-- `websocket.send_json` completed within `WS_PING_TIMEOUT`. -/
  | ok
  /-- `asyncio.wait_for` raised `TimeoutError` after `WS_PING_TIMEOUT`. -/
  | timedOut
  /-- the send raised some other exception. -/
  | errored
deriving DecidableEq, Repr

/-- Environment input for one heartbeat iteration.  `clientAnswersPing`
records whether the client replied to the ping with a pong; the loop body
never reads it (pongs are handled by the independent receive loop and only
touch `last_activity` metadata). -/
structure HbIter where
  sendResult : PingSend
  clientAnswersPing : Bool
deriving DecidableEq, Repr

/-- Observable state of one heartbeat coroutine: elapsed seconds, time of the
last successful ping send (`last_heartbeat[key]`), and the time and close
code of the socket close it issued, if any. -/
structure HbState where
  time : Nat
  lastSuccess : Option Nat
  closedAt : Option Nat
  closeCode : Option Nat
deriving DecidableEq, Repr

/-- Heartbeat coroutine at connection start. -/
def hbInit : HbState := ⟨0, none, none, none⟩

/-- One iteration of `heartbeat_loop`: sleep `WS_HEARTBEAT_INTERVAL`, then
attempt the ping send; on completion record the success time; on timeout
(after `WS_PING_TIMEOUT`) or error, close the socket with code 1008 and
stop. -/
def hbStep (s : HbState) (i : HbIter) : HbState :=
  if s.closedAt.isSome then s
  else
    let t := s.time + WS_HEARTBEAT_INTERVAL
    match i.sendResult with
    | .ok => { time := t, lastSuccess := some t, closedAt := none, closeCode := none }
    | .timedOut =>
        { time := t + WS_PING_TIMEOUT, lastSuccess := s.lastSuccess,
          closedAt := some (t + WS_PING_TIMEOUT), closeCode := some 1008 }
    | .errored =>
        { time := t, lastSuccess := s.lastSuccess,
          closedAt := some t, closeCode := some 1008 }

/-- Run the heartbeat coroutine over a list of iteration inputs. -/
def hbRun (l : List HbIter) : HbState := l.foldl hbStep hbInit

/-- Every user's offline queue is within capacity. -/
def queuesBound (l : List (String × List Msg)) : Prop :=
  ∀ u, (getD l u []).length ≤ WS_MESSAGE_QUEUE_SIZE

/-- A manager with one live presence connection for user `u` (socket 1). -/
def onePresenceState : ManagerState := (connect_partner initState 1 "u" []).2.1

/-- A manager with one registered heartbeat task. -/
def oneTaskState : ManagerState :=
  { initState with heartbeat_tasks := [("u:partner", 7)] }

/-- A manager whose offline queue for user `u` is at capacity. -/
def fullQueueState : ManagerState :=
  { initState with message_queues := [("u", List.replicate WS_MESSAGE_QUEUE_SIZE 0)] }

/-- A manager where user `u` is at the per-user connection quota. -/
def fullUserState : ManagerState :=
  { initState with user_connection_counts := [("u", WS_MAX_CONNECTIONS_PER_USER)] }

/-- A manager with one room `e` holding three members. -/
def threeMemberRoomState : ManagerState :=
  { initState with
      active_connections := [("e", [⟨1, "a"⟩, ⟨2, "b"⟩, ⟨3, "c"⟩])],
      user_connection_counts := [("a", 1), ("b", 1), ("c", 1)],
      room_connection_counts := [("e", 3)] }

/-- A manager with three messages queued for offline user `u`. -/
def threeQueuedState : ManagerState :=
  { initState with message_queues := [("u", [1, 2, 3])] }

/-! ## Association-list lemmas -/

theorem lookupA_insertA_self {α : Type} (l : List (String × α)) (k : String) (v : α) :
    lookupA (insertA l k v) k = some v := by
  induction l with
  | nil => simp [insertA, lookupA]
  | cons p rest ih =>
      by_cases h : p.1 = k
      · simp [insertA, lookupA, h]
      · simp [insertA, lookupA, h, ih]

theorem lookupA_insertA_ne {α : Type} (l : List (String × α)) (k k' : String) (v : α)
    (h : k' ≠ k) : lookupA (insertA l k v) k' = lookupA l k' := by
  have hk : ¬ k = k' := fun hh => h hh.symm
  induction l with
  | nil => simp [insertA, lookupA, hk]
  | cons p rest ih =>
      by_cases hp : p.1 = k
      · rw [insertA, if_pos hp]
        simp [lookupA, hk, hp ▸ hk]
      · rw [insertA, if_neg hp]
        by_cases hp' : p.1 = k'
        · simp [lookupA, hp']
        · simp [lookupA, hp', ih]

theorem getD_insertA_self {α : Type} (l : List (String × α)) (k : String) (v d : α) :
    getD (insertA l k v) k d = v := by
  simp [getD, lookupA_insertA_self]

theorem getD_insertA_ne {α : Type} (l : List (String × α)) (k k' : String) (v d : α)
    (h : k' ≠ k) : getD (insertA l k v) k' d = getD l k' d := by
  simp [getD, lookupA_insertA_ne _ _ _ _ h]

theorem lookupA_none_forall {α : Type} (l : List (String × α)) (k : String)
    (h : lookupA l k = none) : ∀ p ∈ l, p.1 ≠ k := by
  induction l with
  | nil => simp
  | cons p rest ih =>
      intro q hq
      simp only [lookupA] at h
      by_cases hp : p.1 = k
      · simp [hp] at h
      · rcases List.mem_cons.mp hq with rfl | hq'
        · exact hp
        · exact ih (by simpa [hp] using h) q hq'

theorem eraseA_of_lookupA_none {α : Type} (l : List (String × α)) (k : String)
    (h : lookupA l k = none) : eraseA l k = l := by
  unfold eraseA
  exact List.filter_eq_self.mpr (fun p hp => by
    simpa using lookupA_none_forall l k h p hp)

theorem mem_keys_insertA {α : Type} (l : List (String × α)) (k k' : String) (v : α)
    (h : k' ∈ (insertA l k v).map Prod.fst) : k' = k ∨ k' ∈ l.map Prod.fst := by
  induction l with
  | nil => simpa [insertA] using h
  | cons p rest ih =>
      by_cases hp : p.1 = k
      · simp only [insertA, hp, if_pos rfl] at h
        rcases List.mem_map.mp h with ⟨q, hq, rfl⟩
        rcases List.mem_cons.mp hq with rfl | hq'
        · exact Or.inl rfl
        · exact Or.inr (List.mem_map.mpr ⟨q, List.mem_cons_of_mem _ hq', rfl⟩)
      · rw [insertA, if_neg hp] at h
        simp only [List.map_cons, List.mem_cons] at h
        rcases h with hk1 | h'
        · exact Or.inr (by simp [hk1])
        · rcases ih h' with hk | hh
          · exact Or.inl hk
          · exact Or.inr (by simp [hh])

theorem keys_insertA_nodup {α : Type} (l : List (String × α)) (k : String) (v : α)
    (h : (l.map Prod.fst).Nodup) : ((insertA l k v).map Prod.fst).Nodup := by
  induction l with
  | nil => simp [insertA]
  | cons p rest ih =>
      simp only [List.map_cons, List.nodup_cons] at h
      by_cases hp : p.1 = k
      · subst hp
        simpa [insertA, List.nodup_cons] using h
      · simp only [insertA, if_neg hp, List.map_cons, List.nodup_cons]
        refine ⟨fun hmem => ?_, ih h.2⟩
        rcases mem_keys_insertA rest k p.1 v hmem with hk | hh
        · exact hp hk
        · exact h.1 hh

/-! ## Which operations touch the offline queues -/

theorem start_heartbeat_queues (st : ManagerState) (u r : String) :
    (start_heartbeat st u r).1.message_queues = st.message_queues := by
  simp only [start_heartbeat]
  split <;> rfl

theorem stop_heartbeat_queues (st : ManagerState) (u r : String) :
    (stop_heartbeat st u r).1.message_queues = st.message_queues := by
  simp only [stop_heartbeat]
  split <;> rfl

theorem disconnect_queues (st : ManagerState) (w : Nat) (eid : String) :
    (disconnect st w eid).1.message_queues = st.message_queues := by
  simp only [disconnect]
  repeat' split
  all_goals simp [stop_heartbeat_queues]

theorem disconnectAll_queues (eid : String) (dis : List Nat) : ∀ st : ManagerState,
    (disconnectAll eid st dis).1.message_queues = st.message_queues := by
  induction dis with
  | nil => intro st; rfl
  | cons w rest ih =>
      intro st
      simp only [disconnectAll]
      rw [ih, disconnect_queues]

theorem broadcast_queues (st : ManagerState) (eid : String) (msg : Msg)
    (ex : Option Nat) (fw : List Nat) :
    (broadcast_to_event st eid msg ex fw).1.message_queues = st.message_queues := by
  simp only [broadcast_to_event]
  split
  · rfl
  · exact disconnectAll_queues _ _ _

theorem disconnect_partner_queues (st : ManagerState) (u : String) :
    (disconnect_partner st u).1.message_queues = st.message_queues := by
  simp only [disconnect_partner]
  split
  · simp [stop_heartbeat_queues]
  · rfl

/-! ## The capacity bound on offline queues -/

theorem queuesBound_insert (l : List (String × List Msg)) (u : String) (q : List Msg)
    (h : queuesBound l) (hq : q.length ≤ WS_MESSAGE_QUEUE_SIZE) :
    queuesBound (insertA l u q) := by
  intro x
  by_cases hx : x = u
  · subst hx
    rw [getD_insertA_self]
    exact hq
  · rw [getD_insertA_ne _ _ _ _ _ hx]
    exact h x

theorem queue_message_queuesBound (st : ManagerState) (u : String) (m : Msg)
    (h : queuesBound st.message_queues) :
    queuesBound (queue_message_for_user st u m).message_queues := by
  simp only [queue_message_for_user]
  split
  · next hlt =>
      apply queuesBound_insert _ _ _ h
      rw [List.length_append, List.length_singleton]
      omega
  · exact h

theorem flushLoop_queuesBound (u : String) (ws : Nat) (f : List Msg) (msgs : List Msg) :
    ∀ st : ManagerState, queuesBound st.message_queues →
      queuesBound ((flushLoop u ws f st msgs).1).message_queues := by
  induction msgs with
  | nil => intro st h; exact h
  | cons m rest ih =>
      intro st h
      simp only [flushLoop]
      by_cases hm : m ∈ f
      · simp only [if_pos hm]
        exact ih _ (queue_message_queuesBound _ _ _ h)
      · simp only [if_neg hm]
        exact ih _ h

theorem sqm_queuesBound (st : ManagerState) (u : String) (ws : Nat) (f : List Msg)
    (h : queuesBound st.message_queues) :
    queuesBound ((send_queued_messages st u ws f).1).message_queues := by
  simp only [send_queued_messages]
  split
  · split
    · exact h
    · apply flushLoop_queuesBound
      exact queuesBound_insert _ _ _ h (by simp)
  · exact h

theorem connect_queuesBound (st : ManagerState) (ws : Nat) (eid uid : String)
    (f : List Msg) (h : queuesBound st.message_queues) :
    queuesBound ((connect st ws eid uid f).2.1).message_queues := by
  simp only [connect]
  split
  · exact h
  · split
    · exact h
    · apply sqm_queuesBound
      rw [start_heartbeat_queues]
      exact h

theorem connect_partner_queuesBound (st : ManagerState) (ws : Nat) (uid : String)
    (f : List Msg) (h : queuesBound st.message_queues) :
    queuesBound ((connect_partner st ws uid f).2.1).message_queues := by
  simp only [connect_partner]
  split
  · exact h
  · apply sqm_queuesBound
    rw [start_heartbeat_queues]
    exact h

theorem send_notification_queuesBound (st : ManagerState) (u : String) (m : Msg)
    (sf : Bool) (h : queuesBound st.message_queues) :
    queuesBound ((send_notification st u m sf).1).message_queues := by
  simp only [send_notification]
  split
  · split
    · apply queue_message_queuesBound
      rw [disconnect_partner_queues]
      exact h
    · exact h
  · exact queue_message_queuesBound _ _ _ h

theorem initState_queuesBound : queuesBound initState.message_queues := by
  intro u
  simp [initState, getD, lookupA]

theorem applyOp_queuesBound (st : ManagerState) (op : Op)
    (h : queuesBound st.message_queues) :
    queuesBound (applyOp st op).message_queues := by
  cases op with
  | connect ws eid uid f => exact connect_queuesBound st ws eid uid f h
  | connect_partner ws uid f => exact connect_partner_queuesBound st ws uid f h
  | disconnect ws eid =>
      simp only [applyOp]
      rw [disconnect_queues]
      exact h
  | disconnect_partner uid =>
      simp only [applyOp]
      rw [disconnect_partner_queues]
      exact h
  | broadcast eid m ex fw =>
      simp only [applyOp]
      rw [broadcast_queues]
      exact h
  | queueMsg uid m => exact queue_message_queuesBound st uid m h
  | notify uid m sf => exact send_notification_queuesBound st uid m sf h
  | shutdown =>
      intro u
      simp [applyOp, shutdown, getD, lookupA]

theorem reachable_queuesBound (st : ManagerState) (h : Reachable st) :
    queuesBound st.message_queues := by
  induction h with
  | init => exact initState_queuesBound
  | step op hr ih => exact applyOp_queuesBound _ op ih

/-- Every event emitted by the room-connection pass of `shutdown` is a close
with code 1001. -/
theorem shutdown_room_close_events (l : List (String × List ConnInfo)) (e : WsEvent)
    (h : e ∈ l.foldr
        (fun p acc => p.2.map (fun c => WsEvent.close c.websocket 1001) ++ acc) []) :
    ∃ w, e = WsEvent.close w 1001 := by
  induction l with
  | nil => simp at h
  | cons p rest ih =>
      simp only [List.foldr_cons, List.mem_append] at h
      rcases h with h | h
      · rcases List.mem_map.mp h with ⟨c, _, hc⟩
        exact ⟨c.websocket, hc.symm⟩
      · exact ih h

/-! ## Heartbeat-loop timing lemmas -/

theorem hb_closed_fix (l : List HbIter) : ∀ s : HbState, s.closedAt.isSome = true →
    l.foldl hbStep s = s := by
  induction l with
  | nil => intro s _; rfl
  | cons i rest ih =>
      intro s hc
      rw [List.foldl_cons]
      have hstep : hbStep s i = s := by
        simp [hbStep, hc]
      rw [hstep]
      exact ih s hc

theorem hb_ok_run (b : Bool) (k : Nat) : ∀ t : Nat,
    (List.replicate k (⟨PingSend.ok, b⟩ : HbIter)).foldl hbStep ⟨t, some t, none, none⟩
      = ⟨t + k * WS_HEARTBEAT_INTERVAL, some (t + k * WS_HEARTBEAT_INTERVAL),
         none, none⟩ := by
  induction k with
  | zero => intro t; simp
  | succ j ih =>
      intro t
      rw [List.replicate_succ, List.foldl_cons]
      have hstep : hbStep ⟨t, some t, none, none⟩ ⟨PingSend.ok, b⟩
          = ⟨t + WS_HEARTBEAT_INTERVAL, some (t + WS_HEARTBEAT_INTERVAL),
             none, none⟩ := rfl
      rw [hstep, ih]
      have harith : t + WS_HEARTBEAT_INTERVAL + j * WS_HEARTBEAT_INTERVAL
          = t + (j + 1) * WS_HEARTBEAT_INTERVAL := by ring
      rw [harith]

theorem hb_ok_prefix (b : Bool) (k : Nat) :
    (List.replicate k (⟨PingSend.ok, b⟩ : HbIter)).foldl hbStep hbInit
      = ⟨k * WS_HEARTBEAT_INTERVAL,
         if k = 0 then none else some (k * WS_HEARTBEAT_INTERVAL), none, none⟩ := by
  cases k with
  | zero => rfl
  | succ j =>
      rw [List.replicate_succ, List.foldl_cons]
      have hstep : hbStep hbInit ⟨PingSend.ok, b⟩
          = ⟨WS_HEARTBEAT_INTERVAL, some WS_HEARTBEAT_INTERVAL, none, none⟩ := rfl
      rw [hstep]
      have := hb_ok_run b j WS_HEARTBEAT_INTERVAL
      rw [this]
      have harith : WS_HEARTBEAT_INTERVAL + j * WS_HEARTBEAT_INTERVAL
          = (j + 1) * WS_HEARTBEAT_INTERVAL := by ring
      rw [harith]
      simp

/-! ## Room-membership lemmas for disconnect and broadcast -/

theorem lookupA_eraseA_self {α : Type} (l : List (String × α)) (k : String) :
    lookupA (eraseA l k) k = none := by
  induction l with
  | nil => rfl
  | cons p rest ih =>
      simp only [eraseA, List.filter_cons] at ih ⊢
      by_cases hp : p.1 = k
      · simpa [hp] using ih
      · simpa [hp, lookupA] using ih

theorem stop_heartbeat_active (st : ManagerState) (u r : String) :
    (stop_heartbeat st u r).1.active_connections = st.active_connections := by
  simp only [stop_heartbeat]
  split <;> rfl

theorem removeFirst_spec (w : Nat) (conns : List ConnInfo)
    (hnd : (conns.map ConnInfo.websocket).Nodup)
    (hmem : w ∈ conns.map ConnInfo.websocket) :
    ∃ c : ConnInfo, removeFirst w conns
        = some (c, conns.filter (fun x => x.websocket ≠ w))
      ∧ c.websocket = w := by
  induction conns with
  | nil => simp at hmem
  | cons c0 rest ih =>
      simp only [List.map_cons, List.nodup_cons] at hnd
      by_cases h0 : c0.websocket = w
      · refine ⟨c0, ?_, h0⟩
        have hrest : rest.filter (fun x => decide (x.websocket ≠ w)) = rest := by
          apply List.filter_eq_self.mpr
          intro x hx
          simp only [decide_eq_true_eq]
          intro hxw
          exact hnd.1 (by rw [h0, ← hxw]; exact List.mem_map_of_mem _ hx)
        simp only [removeFirst, if_pos h0]
        rw [List.filter_cons, if_neg (by simp [h0]), hrest]
      · have hw : w ∈ rest.map ConnInfo.websocket := by
          rcases List.mem_map.mp hmem with ⟨c, hc, hcw⟩
          rcases List.mem_cons.mp hc with rfl | hc'
          · exact absurd hcw h0
          · exact hcw ▸ List.mem_map_of_mem _ hc'
        obtain ⟨c, hc, hcw⟩ := ih hnd.2 hw
        refine ⟨c, ?_, hcw⟩
        simp only [removeFirst, if_neg h0, hc]
        rw [List.filter_cons, if_pos (by simp [h0])]

theorem disconnect_room_spec (st : ManagerState) (eid : String) (conns : List ConnInfo)
    (w : Nat) (h : lookupA st.active_connections eid = some conns)
    (hnd : (conns.map ConnInfo.websocket).Nodup)
    (hmem : w ∈ conns.map ConnInfo.websocket) :
    getD (disconnect st w eid).1.active_connections eid []
        = conns.filter (fun c => c.websocket ≠ w)
    ∧ (conns.filter (fun c => c.websocket ≠ w) = [] →
        lookupA (disconnect st w eid).1.active_connections eid = none)
    ∧ (conns.filter (fun c => c.websocket ≠ w) ≠ [] →
        lookupA (disconnect st w eid).1.active_connections eid
          = some (conns.filter (fun c => c.websocket ≠ w))) := by
  obtain ⟨c, hrf, hcw⟩ := removeFirst_spec w conns hnd hmem
  simp only [disconnect, h, hrf]
  split
  · next hempty =>
      rw [stop_heartbeat_active] at hempty
      simp only [getD_insertA_self, List.isEmpty_iff] at hempty
      refine ⟨?_, fun _ => lookupA_eraseA_self _ _, fun hne => absurd hempty hne⟩
      simp only [getD]
      rw [lookupA_eraseA_self, hempty]
      rfl
  · next hempty =>
      rw [stop_heartbeat_active] at hempty
      simp only [getD_insertA_self, List.isEmpty_iff] at hempty
      have hlk : lookupA (stop_heartbeat
            { st with
                active_connections := insertA st.active_connections eid
                  (conns.filter (fun x => x.websocket ≠ w)),
                user_connection_counts := addCount st.user_connection_counts c.user_id (-1),
                room_connection_counts := addCount st.room_connection_counts eid (-1) }
            c.user_id eid).1.active_connections eid
          = some (conns.filter (fun x => x.websocket ≠ w)) := by
        rw [stop_heartbeat_active]
        exact lookupA_insertA_self _ _ _
      refine ⟨?_, fun he => absurd he hempty, fun _ => hlk⟩
      simp only [getD]
      rw [hlk]
      rfl

theorem disconnectAll_membership (eid : String) (dis : List Nat) :
    ∀ (conns : List ConnInfo) (st : ManagerState),
      lookupA st.active_connections eid = some conns →
      (conns.map ConnInfo.websocket).Nodup →
      dis.Nodup →
      (∀ x ∈ dis, x ∈ conns.map ConnInfo.websocket) →
      getD (disconnectAll eid st dis).1.active_connections eid []
        = conns.filter (fun c => c.websocket ∉ dis) := by
  induction dis with
  | nil =>
      intro conns st h _ _ _
      simp [disconnectAll, getD, h]
  | cons w rest ih =>
      intro conns st h hnd hdisnd hsub
      simp only [List.nodup_cons] at hdisnd
      have hw : w ∈ conns.map ConnInfo.websocket := hsub w (by simp)
      have hspec := disconnect_room_spec st eid conns w h hnd hw
      simp only [disconnectAll]
      by_cases hempty : conns.filter (fun c => c.websocket ≠ w) = []
      · have hrest : rest = [] := by
          cases rest with
          | nil => rfl
          | cons r rs =>
              exfalso
              have hr : r ∈ conns.map ConnInfo.websocket := hsub r (by simp)
              have hrw : r ≠ w := fun hh => hdisnd.1 (hh ▸ List.mem_cons_self r rs)
              rcases List.mem_map.mp hr with ⟨cr, hcr, hcrw⟩
              have : cr ∈ conns.filter (fun c => c.websocket ≠ w) :=
                List.mem_filter.mpr ⟨hcr, by simp [hcrw, hrw]⟩
              rw [hempty] at this
              simp at this
        subst hrest
        simp only [disconnectAll]
        rw [getD, hspec.2.1 hempty]
        have : conns.filter (fun c => c.websocket ∉ [w])
            = conns.filter (fun c => c.websocket ≠ w) := by
          apply List.filter_congr
          intro x _
          simp [List.mem_singleton]
        rw [this, hempty]
        rfl
      · have hlk := hspec.2.2 hempty
        have hnd1 : ((conns.filter (fun c => c.websocket ≠ w)).map
            ConnInfo.websocket).Nodup :=
          ((List.filter_sublist conns).map ConnInfo.websocket).nodup hnd
        have hsub1 : ∀ x ∈ rest,
            x ∈ (conns.filter (fun c => c.websocket ≠ w)).map ConnInfo.websocket := by
          intro x hx
          have hxw : x ≠ w := fun hh => hdisnd.1 (hh ▸ hx)
          rcases List.mem_map.mp (hsub x (List.mem_cons_of_mem _ hx)) with ⟨cx, hcx, hcxw⟩
          exact List.mem_map.mpr
            ⟨cx, List.mem_filter.mpr ⟨hcx, by simp [hcxw, hxw]⟩, hcxw⟩
        rw [ih _ _ hlk hnd1 hdisnd.2 hsub1, List.filter_filter]
        apply List.filter_congr
        intro x _
        by_cases h1 : x.websocket = w <;> by_cases h2 : x.websocket ∈ rest <;>
          simp [h1, h2, List.mem_cons]

theorem broadcastPass_events (msg : Msg) (ex : Option Nat) (fw : List Nat)
    (conns : List ConnInfo) :
    (broadcastPass msg ex fw conns).1
      = (conns.filter (fun c => some c.websocket ≠ ex)).map
          (fun c => WsEvent.send c.websocket msg) := by
  induction conns with
  | nil => rfl
  | cons c rest ih =>
      simp only [broadcastPass]
      by_cases hex : some c.websocket = ex
      · simp [List.filter_cons, hex, ih]
      · by_cases hf : c.websocket ∈ fw
        · simp [List.filter_cons, hex, hf, ih]
        · simp [List.filter_cons, hex, hf, ih]

theorem broadcastPass_dis (msg : Msg) (ex : Option Nat) (fw : List Nat)
    (conns : List ConnInfo) :
    (broadcastPass msg ex fw conns).2
      = (conns.filter (fun c => some c.websocket ≠ ex ∧ c.websocket ∈ fw)).map
          ConnInfo.websocket := by
  induction conns with
  | nil => rfl
  | cons c rest ih =>
      simp only [broadcastPass]
      by_cases hex : some c.websocket = ex
      · simp [List.filter_cons, hex, ih]
      · by_cases hf : c.websocket ∈ fw
        · simp [List.filter_cons, hex, hf, ih]
        · simp [List.filter_cons, hex, hf, ih]

theorem stop_heartbeat_no_send (st : ManagerState) (u r : String) :
    ∀ e ∈ (stop_heartbeat st u r).2, ∀ (x : Nat) (m : Msg), e ≠ WsEvent.send x m := by
  simp only [stop_heartbeat]
  split
  · intro e he x m
    simp only [List.mem_cons, List.not_mem_nil, or_false] at he
    rcases he with rfl | rfl <;> simp
  · intro e he
    simp at he

theorem disconnect_no_send (st : ManagerState) (w : Nat) (eid : String) :
    ∀ e ∈ (disconnect st w eid).2, ∀ (x : Nat) (m : Msg), e ≠ WsEvent.send x m := by
  simp only [disconnect]
  repeat' split
  all_goals first
    | exact fun e he x m => stop_heartbeat_no_send _ _ _ e he x m
    | (intro e he; simp at he)

theorem disconnectAll_no_send (eid : String) (dis : List Nat) : ∀ st : ManagerState,
    ∀ e ∈ (disconnectAll eid st dis).2, ∀ (x : Nat) (m : Msg), e ≠ WsEvent.send x m := by
  induction dis with
  | nil =>
      intro st e he
      simp [disconnectAll] at he
  | cons w rest ih =>
      intro st e he x m
      simp only [disconnectAll, List.mem_append] at he
      rcases he with h | h
      · exact disconnect_no_send st w eid e h x m
      · exact ih _ e h x m

/-! ## The claims -/

/-- C1: the claim says a second successful presence open for the same user
closes and fully tears down the prior connection (close delivered to the old
socket, heartbeat stopped, counter decremented) before installing the new
one.  The code instead overwrites the slot: starting from a manager whose
user `u` holds presence socket 1, a second open with socket 2 succeeds, its
only effect besides the flush is cancelling the old heartbeat task — no
close is ever delivered to socket 1 — and the user's counter rises to 2
although `u` owns a single record. -/
theorem C1_second_presence_open_skips_teardown :
    (connect_partner onePresenceState 2 "u" []).1 = true
    ∧ (connect_partner onePresenceState 2 "u" []).2.2 = [WsEvent.cancel 0]
    ∧ getD (connect_partner onePresenceState 2 "u" []).2.1.user_connection_counts
        "u" 0 = 2
    ∧ lookupA (connect_partner onePresenceState 2 "u" []).2.1.partner_connections
        "u" = some ⟨2, "u"⟩ := by decide

/-- C2: the claim says the per-user counter always equals the number of
records the user owns across both registries after any sequence of connect,
connect_partner, disconnect, disconnect_partner.  The sequence of two
presence opens for the same user breaks it: the counter reads 2 while the
user owns a single record. -/
theorem C2_counter_record_mismatch :
    getD (applyOps initState
        [Op.connect_partner 1 "u" [], Op.connect_partner 2 "u" []]).user_connection_counts
        "u" 0 = 2
    ∧ ownedRecords (applyOps initState
        [Op.connect_partner 1 "u" [], Op.connect_partner 2 "u" []]) "u" = 1 := by
  decide

/-- C4 counterexample: the claim says `shutdown` awaits each cancelled
heartbeat task's completion before returning.  On a manager holding one
heartbeat task, shutdown emits the cancellation but no await for it. -/
theorem C4_shutdown_never_awaits :
    WsEvent.cancel 7 ∈ (shutdown oneTaskState).2
    ∧ WsEvent.awaitTask 7 ∉ (shutdown oneTaskState).2 := by decide

/-- C4 (amended): `shutdown()` cancels every outstanding heartbeat task
(without awaiting any task's completion), and after it returns the room and
presence registries, both counters, the offline queues, the heartbeat task
map and the last-heartbeat map are all empty. -/
theorem C4_shutdown_cancels_and_clears (st : ManagerState) :
    (shutdown st).1.active_connections = []
    ∧ (shutdown st).1.partner_connections = []
    ∧ (shutdown st).1.user_connection_counts = []
    ∧ (shutdown st).1.room_connection_counts = []
    ∧ (shutdown st).1.message_queues = []
    ∧ (shutdown st).1.heartbeat_tasks = []
    ∧ (shutdown st).1.last_heartbeat = []
    ∧ (∀ p ∈ st.heartbeat_tasks, WsEvent.cancel p.2 ∈ (shutdown st).2)
    ∧ (∀ t : Nat, WsEvent.awaitTask t ∉ (shutdown st).2) := by
  refine ⟨rfl, rfl, rfl, rfl, rfl, rfl, rfl, ?_, ?_⟩
  · intro p hp
    simp only [shutdown, List.mem_append]
    exact Or.inl (Or.inl (List.mem_map.mpr ⟨p, hp, rfl⟩))
  · intro t ht
    simp only [shutdown, List.mem_append] at ht
    rcases ht with (h | h) | h
    · rcases List.mem_map.mp h with ⟨p, _, hpe⟩
      exact absurd hpe (by simp)
    · rcases shutdown_room_close_events st.active_connections _ h with ⟨w, hw⟩
      simp at hw
    · rcases List.mem_map.mp h with ⟨p, _, hpe⟩
      exact absurd hpe (by simp)

/-- C5: every reachable manager keeps every user's offline queue within the
configured capacity, and an enqueue against a queue already at capacity
leaves the whole manager unchanged — the incoming message is dropped, not
the oldest queued one. -/
theorem C5_offline_queue_capacity :
    (∀ st : ManagerState, Reachable st →
      ∀ u : String, (getD st.message_queues u []).length ≤ WS_MESSAGE_QUEUE_SIZE)
    ∧ (∀ (st : ManagerState) (u : String) (m : Msg),
        (getD st.message_queues u []).length = WS_MESSAGE_QUEUE_SIZE →
        queue_message_for_user st u m = st) := by
  constructor
  · exact fun st h => reachable_queuesBound st h
  · intro st u m hfull
    simp only [queue_message_for_user]
    rw [if_neg (by omega)]

/-- Witness for C5: the fresh manager's queue for `u` is within capacity, and
an enqueue against the full queue of `fullQueueState` is the identity. -/
theorem C5_offline_queue_capacity_witness :
    (getD initState.message_queues "u" []).length ≤ WS_MESSAGE_QUEUE_SIZE
    ∧ queue_message_for_user fullQueueState "u" 7 = fullQueueState :=
  ⟨C5_offline_queue_capacity.1 initState Reachable.init "u",
   C5_offline_queue_capacity.2 fullQueueState "u" 7 (by decide)⟩

/-- C6: a room join is rejected exactly when the user is at the per-user
quota or the room at the per-room quota, and a presence open exactly when
the user is at the per-user quota; every rejection leaves the manager state
untouched (no record registered, no counter incremented, nothing queued) and
merely closes the incoming socket with policy code 1008. -/
theorem C6_admission_quota (st : ManagerState) (ws : Nat) (eid uid : String)
    (fm : List Msg) :
    ((connect st ws eid uid fm).1 = false ↔
        (getD st.user_connection_counts uid 0 ≥ WS_MAX_CONNECTIONS_PER_USER
         ∨ getD st.room_connection_counts eid 0 ≥ WS_MAX_CONNECTIONS_PER_ROOM))
    ∧ ((connect st ws eid uid fm).1 = false →
        (connect st ws eid uid fm).2.1 = st
        ∧ (connect st ws eid uid fm).2.2 = [WsEvent.close ws 1008])
    ∧ ((connect_partner st ws uid fm).1 = false ↔
        getD st.user_connection_counts uid 0 ≥ WS_MAX_CONNECTIONS_PER_USER)
    ∧ ((connect_partner st ws uid fm).1 = false →
        (connect_partner st ws uid fm).2.1 = st
        ∧ (connect_partner st ws uid fm).2.2 = [WsEvent.close ws 1008]) := by
  simp only [connect, connect_partner]
  split_ifs with h1 h2 <;> simp_all

/-- Witness for C6: with user `u` at the quota (50 connections), the 51st
join and the 51st presence open are both rejected and change nothing. -/
theorem C6_admission_quota_witness :
    (connect fullUserState 9 "e" "u" []).1 = false
    ∧ (connect fullUserState 9 "e" "u" []).2.1 = fullUserState
    ∧ (connect_partner fullUserState 9 "u" []).1 = false
    ∧ (connect_partner fullUserState 9 "u" []).2.1 = fullUserState := by
  have h := C6_admission_quota fullUserState 9 "e" "u" []
  refine ⟨h.1.mpr (Or.inl (by decide)), (h.2.1 (h.1.mpr (Or.inl (by decide)))).1,
    h.2.2.1.mpr (by decide), (h.2.2.2 (h.2.2.1.mpr (by decide))).1⟩

/-- C9: at most one heartbeat task is registered per `user:room` key —
starting a heartbeat over an existing task first cancels that task and then
overwrites the slot with the fresh task (key distinctness is preserved), and
stopping a heartbeat for a key holding no task (and no stale timestamp) is a
no-op. -/
theorem C9_heartbeat_task_discipline (st : ManagerState) (uid rid : String) :
    (st.shutting_down = false →
      lookupA (start_heartbeat st uid rid).1.heartbeat_tasks (uid ++ ":" ++ rid)
          = some st.next_task
      ∧ (∀ t : Nat, lookupA st.heartbeat_tasks (uid ++ ":" ++ rid) = some t →
            (start_heartbeat st uid rid).2 = [WsEvent.cancel t])
      ∧ (lookupA st.heartbeat_tasks (uid ++ ":" ++ rid) = none →
            (start_heartbeat st uid rid).2 = [])
      ∧ ((st.heartbeat_tasks.map Prod.fst).Nodup →
            ((start_heartbeat st uid rid).1.heartbeat_tasks.map Prod.fst).Nodup))
    ∧ (lookupA st.heartbeat_tasks (uid ++ ":" ++ rid) = none →
        lookupA st.last_heartbeat (uid ++ ":" ++ rid) = none →
        stop_heartbeat st uid rid = (st, [])) := by
  constructor
  · intro hsd
    simp only [start_heartbeat, hsd]
    refine ⟨lookupA_insertA_self _ _ _, ?_, ?_, ?_⟩
    · intro t ht
      simp [ht]
    · intro hn
      simp [hn]
    · intro hnd
      exact keys_insertA_nodup _ _ _ hnd
  · intro h1 h2
    simp only [stop_heartbeat, h1]
    rw [eraseA_of_lookupA_none _ _ h2]

/-- Witness for C9: starting over the registered task of `oneTaskState`
cancels task 7 and installs task 0; stopping on the fresh manager is a
no-op. -/
theorem C9_heartbeat_task_discipline_witness :
    lookupA (start_heartbeat oneTaskState "u" "partner").1.heartbeat_tasks
        ("u" ++ ":" ++ "partner") = some 0
    ∧ (start_heartbeat oneTaskState "u" "partner").2 = [WsEvent.cancel 7]
    ∧ stop_heartbeat initState "u" "partner" = (initState, []) := by
  have h := C9_heartbeat_task_discipline oneTaskState "u" "partner"
  have h2 := C9_heartbeat_task_discipline initState "u" "partner"
  exact ⟨(h.1 rfl).1, (h.1 rfl).2.1 7 (by decide), h2.2 (by decide) (by decide)⟩

/-- C10: broadcasting to a room id with no registry entry returns no events
and the state exactly as it was. -/
theorem C10_broadcast_unknown_room (st : ManagerState) (eid : String) (msg : Msg)
    (ex : Option Nat) (fw : List Nat)
    (h : lookupA st.active_connections eid = none) :
    broadcast_to_event st eid msg ex fw = (st, []) := by
  simp [broadcast_to_event, h]

/-- Witness for C10 on the fresh manager. -/
theorem C10_broadcast_unknown_room_witness :
    broadcast_to_event initState "nowhere" 0 none [] = (initState, []) :=
  C10_broadcast_unknown_room initState "nowhere" 0 none [] rfl

/-- C3 counterexample: the claim says a connection whose client never answers
a ping is closed within heartbeat-interval plus ping-timeout of the last
successful heartbeat.  The loop's timeout only guards the completion of the
ping send (`asyncio.wait_for` around `send_json`), never a pong reply: over
five iterations in which the client never answers a single ping but the
socket accepts every send, 150 seconds elapse — far past
interval + timeout = 35 — and the heartbeat has closed nothing. -/
theorem C3_never_answered_ping_not_closed :
    (hbRun (List.replicate 5 ⟨PingSend.ok, false⟩)).closedAt = none
    ∧ (∀ i ∈ List.replicate 5 (⟨PingSend.ok, false⟩ : HbIter), i.clientAnswersPing = false)
    ∧ (hbRun (List.replicate 5 ⟨PingSend.ok, false⟩)).time = 150
    ∧ WS_HEARTBEAT_INTERVAL + WS_PING_TIMEOUT < 150 := by decide

/-- C3 (amended): the heartbeat mechanism does not track pong replies; the
connection it reaps is one whose ping send fails to complete within the ping
timeout.  Such a connection is closed with policy code 1008 exactly
heartbeat-interval + ping-timeout after the last successful ping send
(after the k-th interval from connection start when all k prior sends
succeeded), and removal from the room registry then happens through the
connection handler's `disconnect` path, which deletes the record. -/
theorem C3_send_timeout_closes (k : Nat) (b b' : Bool) (rest : List HbIter) :
    ((hbRun (List.replicate k ⟨PingSend.ok, b⟩
          ++ ⟨PingSend.timedOut, b'⟩ :: rest)).closedAt
        = some (k * WS_HEARTBEAT_INTERVAL + WS_HEARTBEAT_INTERVAL + WS_PING_TIMEOUT)
      ∧ (hbRun (List.replicate k ⟨PingSend.ok, b⟩
            ++ ⟨PingSend.timedOut, b'⟩ :: rest)).closeCode = some 1008
      ∧ (hbRun (List.replicate k ⟨PingSend.ok, b⟩
            ++ ⟨PingSend.timedOut, b'⟩ :: rest)).lastSuccess
          = (if k = 0 then none else some (k * WS_HEARTBEAT_INTERVAL)))
    ∧ (∀ (st : ManagerState) (eid : String) (conns : List ConnInfo) (w : Nat),
        lookupA st.active_connections eid = some conns →
        (conns.map ConnInfo.websocket).Nodup →
        w ∈ conns.map ConnInfo.websocket →
        getD (disconnect st w eid).1.active_connections eid []
          = conns.filter (fun c => c.websocket ≠ w)) := by
  constructor
  · unfold hbRun
    rw [List.foldl_append, hb_ok_prefix, List.foldl_cons]
    have hstep : hbStep
        ⟨k * WS_HEARTBEAT_INTERVAL,
         if k = 0 then none else some (k * WS_HEARTBEAT_INTERVAL), none, none⟩
        ⟨PingSend.timedOut, b'⟩
        = ⟨k * WS_HEARTBEAT_INTERVAL + WS_HEARTBEAT_INTERVAL + WS_PING_TIMEOUT,
           if k = 0 then none else some (k * WS_HEARTBEAT_INTERVAL),
           some (k * WS_HEARTBEAT_INTERVAL + WS_HEARTBEAT_INTERVAL + WS_PING_TIMEOUT),
           some 1008⟩ := by
      simp [hbStep]
    rw [hstep, hb_closed_fix _ _ (by simp)]
    exact ⟨rfl, rfl, rfl⟩
  · intro st eid conns w h hnd hmem
    exact (disconnect_room_spec st eid conns w h hnd hmem).1

/-- Witness for C3 (amended): two good pings then a timed-out send close the
connection at second 95 = 60 + 30 + 5, and a concrete room disconnect
removes the reaped member's record. -/
theorem C3_send_timeout_closes_witness :
    (hbRun (List.replicate 2 ⟨PingSend.ok, true⟩
        ++ ⟨PingSend.timedOut, false⟩ :: [])).closedAt = some 95
    ∧ getD (disconnect threeMemberRoomState 2 "e").1.active_connections "e" []
        = [⟨1, "a"⟩, ⟨3, "c"⟩] := by
  have h := C3_send_timeout_closes 2 true false []
  refine ⟨h.1.1.trans (by decide), ?_⟩
  exact (h.2 threeMemberRoomState "e" [⟨1, "a"⟩, ⟨2, "b"⟩, ⟨3, "c"⟩] 2
    (by decide) (by decide) (by decide)).trans (by decide)

/-- C7: a room broadcast attempts a send to every member present at the
start of the call except the excluded socket, in membership order; the
events of the cleanup phase follow all the sends and contain no send, and
the members whose send failed (and only those) have been removed from the
room's membership by the end of the call. -/
theorem C7_broadcast_deferred_removal (st : ManagerState) (eid : String) (msg : Msg)
    (ex : Option Nat) (fw : List Nat) (conns : List ConnInfo)
    (h : lookupA st.active_connections eid = some conns)
    (hnd : (conns.map ConnInfo.websocket).Nodup) :
    (broadcast_to_event st eid msg ex fw).2
        = (conns.filter (fun c => some c.websocket ≠ ex)).map
            (fun c => WsEvent.send c.websocket msg)
          ++ (disconnectAll eid st (broadcastPass msg ex fw conns).2).2
    ∧ (∀ e ∈ (disconnectAll eid st (broadcastPass msg ex fw conns).2).2,
          ∀ (x : Nat) (m : Msg), e ≠ WsEvent.send x m)
    ∧ getD (broadcast_to_event st eid msg ex fw).1.active_connections eid []
        = conns.filter (fun c => some c.websocket = ex ∨ c.websocket ∉ fw) := by
  refine ⟨?_, disconnectAll_no_send eid _ st, ?_⟩
  · simp only [broadcast_to_event, h]
    rw [broadcastPass_events]
  · simp only [broadcast_to_event, h]
    rw [broadcastPass_dis]
    have hdisnd : ((conns.filter
        (fun c => some c.websocket ≠ ex ∧ c.websocket ∈ fw)).map
          ConnInfo.websocket).Nodup :=
      ((List.filter_sublist conns).map ConnInfo.websocket).nodup hnd
    have hsub : ∀ x ∈ (conns.filter
        (fun c => some c.websocket ≠ ex ∧ c.websocket ∈ fw)).map ConnInfo.websocket,
        x ∈ conns.map ConnInfo.websocket := by
      intro x hx
      rcases List.mem_map.mp hx with ⟨c, hc, hcw⟩
      exact hcw ▸ List.mem_map_of_mem _ (List.mem_filter.mp hc).1
    rw [disconnectAll_membership eid _ conns st h hnd hdisnd hsub]
    apply List.filter_congr
    intro c hc
    have hmemdis : c.websocket ∈ (conns.filter
        (fun c => some c.websocket ≠ ex ∧ c.websocket ∈ fw)).map ConnInfo.websocket
        ↔ (some c.websocket ≠ ex ∧ c.websocket ∈ fw) := by
      constructor
      · intro hx
        rcases List.mem_map.mp hx with ⟨c', hc', hww⟩
        have hcc : c' = c :=
          List.inj_on_of_nodup_map hnd (List.mem_filter.mp hc').1 hc hww
        subst hcc
        simpa using (List.mem_filter.mp hc').2
      · intro hx
        exact List.mem_map.mpr ⟨c, List.mem_filter.mpr ⟨hc, by simp [hx.1, hx.2]⟩, rfl⟩
    refine decide_eq_decide.mpr ?_
    constructor
    · intro hnot
      by_cases h1 : some c.websocket = ex
      · exact Or.inl h1
      · exact Or.inr (fun hf => hnot (hmemdis.mpr ⟨h1, hf⟩))
    · intro hor hmem
      rcases hmemdis.mp hmem with ⟨hne, hf⟩
      rcases hor with h1 | h2
      · exact hne h1
      · exact h2 hf

/-- Witness for C7: in a three-member room, broadcasting with member 1
excluded and member 2 failing sends to members 2 and 3 in order and then
removes member 2. -/
theorem C7_broadcast_deferred_removal_witness :
    (broadcast_to_event threeMemberRoomState "e" 5 (some 1) [2]).2
        = [WsEvent.send 2 5, WsEvent.send 3 5]
          ++ (disconnectAll "e" threeMemberRoomState
              (broadcastPass 5 (some 1) [2] [⟨1, "a"⟩, ⟨2, "b"⟩, ⟨3, "c"⟩]).2).2
    ∧ getD (broadcast_to_event threeMemberRoomState "e" 5 (some 1) [2]).1.active_connections
        "e" [] = [⟨1, "a"⟩, ⟨3, "c"⟩] := by
  have h := C7_broadcast_deferred_removal threeMemberRoomState "e" 5 (some 1) [2]
    [⟨1, "a"⟩, ⟨2, "b"⟩, ⟨3, "c"⟩] (by decide) (by decide)
  exact ⟨h.1.trans (by decide), h.2.2.trans (by decide)⟩

/-- The flush loop of `send_queued_messages`: attempts every drained message
in order and accumulates exactly the failed ones back into the user's queue,
provided the total fits within capacity. -/
theorem flushLoop_spec (u : String) (ws : Nat) (f : List Msg) (msgs : List Msg) :
    ∀ st : ManagerState,
      (getD st.message_queues u []).length
          + (msgs.filter (fun m => m ∈ f)).length ≤ WS_MESSAGE_QUEUE_SIZE →
      (flushLoop u ws f st msgs).2 = msgs.map (fun m => WsEvent.send ws m)
      ∧ getD (flushLoop u ws f st msgs).1.message_queues u []
          = getD st.message_queues u [] ++ msgs.filter (fun m => m ∈ f) := by
  induction msgs with
  | nil =>
      intro st _
      exact ⟨rfl, by simp [flushLoop]⟩
  | cons m rest ih =>
      intro st hb
      simp only [flushLoop]
      by_cases hm : m ∈ f
      · rw [List.filter_cons, if_pos (by simp [hm])] at hb ⊢
        simp only [List.length_cons] at hb
        have hlen : (getD st.message_queues u []).length < WS_MESSAGE_QUEUE_SIZE := by
          omega
        have hq1 : getD (queue_message_for_user st u m).message_queues u []
            = getD st.message_queues u [] ++ [m] := by
          simp only [queue_message_for_user, if_pos hlen]
          exact getD_insertA_self _ _ _ _
        have hb1 : (getD (queue_message_for_user st u m).message_queues u []).length
            + (rest.filter (fun x => x ∈ f)).length ≤ WS_MESSAGE_QUEUE_SIZE := by
          rw [hq1, List.length_append, List.length_singleton]
          omega
        obtain ⟨he, hqq⟩ := ih _ hb1
        constructor
        · simp [he]
        · rw [hqq, hq1]
          simp [hm, List.append_assoc]
      · rw [List.filter_cons, if_neg (by simp [hm])] at hb ⊢
        obtain ⟨he, hqq⟩ := ih st hb
        constructor
        · simp [he]
        · rw [hqq]
          simp [hm]

/-- C8: on reconnect, every message in the user's offline queue is attempted
over the new connection in FIFO order, the queue is cleared, and exactly the
messages whose send failed are re-queued (in order) rather than lost. -/
theorem C8_flush_fifo_requeue (st : ManagerState) (u : String) (ws : Nat) (f : List Msg)
    (hlen : (getD st.message_queues u []).length ≤ WS_MESSAGE_QUEUE_SIZE) :
    (send_queued_messages st u ws f).2
        = (getD st.message_queues u []).map (fun m => WsEvent.send ws m)
    ∧ getD (send_queued_messages st u ws f).1.message_queues u []
        = (getD st.message_queues u []).filter (fun m => m ∈ f) := by
  rcases hq : lookupA st.message_queues u with _ | q
  · have h0 : getD st.message_queues u [] = [] := by simp [getD, hq]
    simp only [send_queued_messages, hq, h0]
    exact ⟨rfl, rfl⟩
  · have h0 : getD st.message_queues u [] = q := by simp [getD, hq]
    simp only [send_queued_messages, hq]
    by_cases hqe : q.isEmpty
    · rw [if_pos hqe]
      rw [List.isEmpty_iff] at hqe
      rw [h0, hqe]
      exact ⟨rfl, rfl⟩
    · rw [if_neg hqe]
      have hst0 : getD { st with
          message_queues := insertA st.message_queues u [] }.message_queues u [] = [] :=
        getD_insertA_self _ _ _ _
      have hb : (getD { st with
            message_queues := insertA st.message_queues u [] }.message_queues u []).length
          + (q.filter (fun m => m ∈ f)).length ≤ WS_MESSAGE_QUEUE_SIZE := by
        rw [hst0]
        have hf := List.length_filter_le (fun m => decide (m ∈ f)) q
        rw [h0] at hlen
        simpa using le_trans hf hlen
      obtain ⟨he, hqq⟩ := flushLoop_spec u ws f q _ hb
      rw [h0]
      exact ⟨he, by rw [hqq, hst0]; simp⟩

/-- Witness for C8: a queue of three messages where message 2 fails to send
is flushed as sends 1, 2, 3 and leaves exactly message 2 re-queued. -/
theorem C8_flush_fifo_requeue_witness :
    (send_queued_messages threeQueuedState "u" 9 [2]).2
        = [WsEvent.send 9 1, WsEvent.send 9 2, WsEvent.send 9 3]
    ∧ getD (send_queued_messages threeQueuedState "u" 9 [2]).1.message_queues "u" []
        = [2] := by
  have h := C8_flush_fifo_requeue threeQueuedState "u" 9 [2] (by decide)
  exact ⟨h.1.trans (by decide), h.2.trans (by decide)⟩

end LoomWS
